import Mathlib

/-!
Verification development for the CHROMADON MCP OBS WebSocket client
(`OBSClient` in the repository source).

The development shallowly embeds the client:

* the connection lifecycle `connect()` with its bounded, jittered
  exponential-backoff retry loop, `scheduleReconnect()` and the
  connection state flags (`connected`, `connecting`, `retryCount`);
* the operation library (`startStream`, `setScene`, `setMicMute`,
  `setSourceVisibility`, `getStatus`, `isConnected`) over an abstract
  controller oracle, each operation additionally reporting the trace of
  RPC names it issues to the controller;
* the command serializer (`serialize`) as a labelled transition system
  whose gating condition is exactly the promise-chain discipline of the
  source: an operation body may begin only once the bookkeeping promise
  of its predecessor has been resolved, and that resolution happens in a
  guaranteed-run cleanup step regardless of the body outcome.

Numeric modelling conventions: the JavaScript numbers involved in the
retry policy (delays in milliseconds, the jitter factor
`0.7 + Math.random() * 0.6`) are embedded in `Nat` at a fixed scale of
1/1000: a jitter draw is a number `j` with `700 ≤ j ∧ j < 1300` and a
slept delay is `rawDelay * j` (thousandths of a millisecond).  The
scaling is strictly monotone, so every ordering or bound statement about
delays transfers verbatim.  The performance metrics returned by
`GetStats` are abstracted as integers; no claim inspects their values.
-/

/-! ## String-inclusion helper

JavaScript classifies errors by `String.prototype.includes`.  We model
substring search directly on character lists. -/

/-- Does the second list start with the first one? -/
def listStartsWith : List Char → List Char → Bool
  | [], _ => true
  | _ :: _, [] => false
  | p :: ps, c :: cs => p == c && listStartsWith ps cs

/-- Does the pattern occur as a contiguous sublist of the target? -/
def listHasSub (p : List Char) : List Char → Bool
  | [] => p.isEmpty
  | c :: cs => listStartsWith p (c :: cs) || listHasSub p cs

/-- Model of JavaScript `target.includes(pattern)`. -/
def strHasSub (p s : String) : Bool := listHasSub p.toList s.toList

/-! ## Connection lifecycle

Embedding of `connect()` (source lines 76-140), `scheduleReconnect()`
(lines 142-146) and the client state flags.  The handshake transport is
abstracted as an oracle mapping the ordinal of each handshake attempt
within the call to `none` (success) or `some msg` (failure with error
message `msg`).  The `while (this.retryCount <= this.maxRetries)` loop
is embedded with explicit fuel `maxRetries + 1 - retryCount`, which is
zero exactly when the loop guard is initially false and decreases by one
per iteration because every failing iteration increments `retryCount`. -/

/-- Client configuration: `maxRetries`, `baseDelay`, `maxDelay`
(source lines 53-55). -/
structure ConnCfg where
  maxRetries : Nat
  baseDelay : Nat
  maxDelay : Nat
deriving DecidableEq

/-- The defaults of the source: 10 retries, base 1s, cap 30s. -/
def defaultCfg : ConnCfg := ⟨10, 1000, 30000⟩

/-- The mutable connection flags of `OBSClient`
(source lines 50-52). -/
structure CState where
  connected : Bool
  connecting : Bool
  retryCount : Nat
deriving DecidableEq

/-- How a `connect()` call returns: `ok` is a successful handshake,
`noop` is the early return when already connected or connecting,
`loopExit` is falling through the `while` loop because its guard was
false on entry (the call resolves without error), `authFailed` and
`exhausted` are the two `throw` sites. -/
inductive ConnResult where
  | ok
  | noop
  | loopExit
  | authFailed (msg : String)
  | exhausted (msg : String)
deriving DecidableEq

/-- Observable outcome of one `connect()` call: result, final client
state, number of handshake attempts issued, and the list of slept
backoff delays, in order (in thousandths of a millisecond). -/
structure ConnRun where
  result : ConnResult
  state : CState
  attempts : Nat
  sleeps : List Nat
deriving DecidableEq

/-- The message of the `AUTH_FAILED` throw (source line 119). -/
def authFailedMsg : String := "AUTH_FAILED: OBS WebSocket password is incorrect"

/-- The message of the retry-exhaustion throw (source lines 126-128). -/
def exhaustedMsg (maxRetries : Nat) (lastErr : String) : String :=
  "Failed to connect after " ++ toString maxRetries ++ " attempts. Last error: " ++ lastErr

/-- Authentication-class test of the source (line 111-112):
the message includes `Authentication` or `auth`. -/
def isAuthErr (msg : String) : Bool := strHasSub "Authentication" msg || strHasSub "auth" msg

/-- Connection-refused test of the source (line 105). -/
def isRefusedErr (msg : String) : Bool := strHasSub "ECONNREFUSED" msg

/-- Un-jittered backoff delay before the `n`-th retry, in ms:
`min(baseDelay * 2^(n-1), maxDelay)` (source lines 131-134). -/
def rawDelay (cfg : ConnCfg) (n : Nat) : Nat :=
  min (cfg.baseDelay * 2 ^ (n - 1)) cfg.maxDelay

/-- The retry loop of `connect()`.  `oracle a` is the result of the
`a`-th handshake attempt of this call, `jit n` the jitter draw (scaled
by 1000) used for the sleep after the `n`-th failure.  The source's
`if/else if/else` classification logs in the refused and default
branches and continues, and throws only in the authentication branch,
which is reachable exactly when the message is not refused-class;
the flattened condition below is that reachability condition. -/
def connectLoop (cfg : ConnCfg) (oracle : Nat → Option String) (jit : Nat → Nat) :
    Nat → CState → Nat → ConnRun
  | 0, st, _ => ⟨ConnResult.loopExit, st, 0, []⟩
  | fuel + 1, st, aIdx =>
    match oracle aIdx with
    | none =>
        ⟨ConnResult.ok, { st with connected := true, connecting := false, retryCount := 0 }, 1, []⟩
    | some msg =>
        let st1 : CState := { st with retryCount := st.retryCount + 1 }
        if !isRefusedErr msg && isAuthErr msg then
          ⟨ConnResult.authFailed authFailedMsg, { st1 with connecting := false }, 1, []⟩
        else if cfg.maxRetries < st1.retryCount then
          ⟨ConnResult.exhausted (exhaustedMsg cfg.maxRetries msg), { st1 with connecting := false },
            1, []⟩
        else
          let slept := rawDelay cfg st1.retryCount * jit st1.retryCount
          let r := connectLoop cfg oracle jit fuel st1 (aIdx + 1)
          ⟨r.result, r.state, r.attempts + 1, slept :: r.sleeps⟩

/-- `connect()` (source lines 76-140): early return when connected or
already connecting, otherwise set `connecting` and run the retry loop.
Note the source never clears `connecting` on the fall-through exit of
the `while` loop. -/
def connect (cfg : ConnCfg) (oracle : Nat → Option String) (jit : Nat → Nat)
    (st : CState) : ConnRun :=
  if st.connected || st.connecting then ⟨ConnResult.noop, st, 0, []⟩
  else connectLoop cfg oracle jit (cfg.maxRetries + 1 - st.retryCount)
    { st with connecting := true } 0

/-- `scheduleReconnect()` (source lines 142-146): whether the 3-second
reconnect timer is armed; it fires only when no connect is in
progress. -/
def scheduleReconnect (st : CState) : Bool := !st.connecting

/-! ## Operation library

Each operation is embedded as a pure function of the client state and a
controller oracle, returning its result together with the ordered list
of RPC names it issues to the controller.  Business-level failures are
`Except.ok` results with `success := false`; `Except.error` is a thrown
exception. -/

/-- The `{success, message}` result shape of the operations. -/
structure OpRes where
  success : Bool
  message : String
deriving DecidableEq

/-- The message of the `NOT_CONNECTED` throw (source lines 165-167). -/
def notConnectedMsg : String :=
  "NOT_CONNECTED: OBS WebSocket is not connected. Is OBS running with WebSocket enabled?"

/-- `ensureConnected()` (source lines 163-169): pure check that throws
`NOT_CONNECTED` when the client is not connected. -/
def ensureConnected (st : CState) : Except String Unit :=
  if st.connected then Except.ok () else Except.error notConnectedMsg

/-- Controller-side facts read by the scene and stream operations. -/
structure Controller where
  currentScene : String
  scenes : List String
  streamActive : Bool
deriving DecidableEq

/-- The safe-mode refusal message of `startStream` (source line 183). -/
def safeModeMsg (scene : String) (safeScenes : List String) : String :=
  "SAFE_MODE: Refusing to start stream. Current scene \"" ++ scene ++
    "\" is not in safe list [" ++ String.intercalate ", " safeScenes ++
    "]. Switch to an approved scene first."

/-- `startStream()` (source lines 173-198).  When safe mode is on, the
current scene is read first (via `getCurrentScene`, one
`GetCurrentProgramScene` RPC) and the operation refuses before any
further RPC if it is not allow-listed; otherwise the stream status is
checked and the start is issued only when not already streaming. -/
def startStream (safeMode : Bool) (safeScenes : List String) (st : CState) (c : Controller) :
    Except String OpRes × List String :=
  match ensureConnected st with
  | Except.error e => (Except.error e, [])
  | Except.ok _ =>
    let preTrace : List String := if safeMode then ["GetCurrentProgramScene"] else []
    if safeMode && !(safeScenes.contains c.currentScene) then
      (Except.ok ⟨false, safeModeMsg c.currentScene safeScenes⟩, preTrace)
    else if c.streamActive then
      (Except.ok ⟨true, "Stream already active"⟩, preTrace ++ ["GetStreamStatus"])
    else
      (Except.ok ⟨true, "Stream started"⟩, preTrace ++ ["GetStreamStatus", "StartStream"])

/-- The unknown-scene message of `setScene` (source line 276). -/
def sceneNotFoundMsg (name : String) (scenes : List String) : String :=
  "SCENE_NOT_FOUND: Scene \"" ++ name ++ "\" does not exist. Available: [" ++
    String.intercalate ", " scenes ++ "]"

/-- `setScene()` (source lines 265-286): validate the name against the
live scene list, refuse with `SCENE_NOT_FOUND` when absent, switch
otherwise. -/
def setScene (name : String) (st : CState) (c : Controller) :
    Except String OpRes × List String :=
  match ensureConnected st with
  | Except.error e => (Except.error e, [])
  | Except.ok _ =>
    if c.scenes.contains name then
      (Except.ok ⟨true, "Switched to scene: " ++ name⟩,
        ["GetSceneList", "SetCurrentProgramScene"])
    else
      (Except.ok ⟨false, sceneNotFoundMsg name c.scenes⟩, ["GetSceneList"])

/-- The fixed fallback list of candidate microphone input names
(source lines 300-307). -/
def micFallback : List String :=
  ["Mic/Aux", "Blue Yeti", "Microphone", "Mic", "Audio Input Capture", "Desktop Audio"]

/-- Candidate input names tried by `setMicMute` (source lines 298-307):
the explicit name alone when given, else the fixed fallback list. -/
def micCandidates (inputName : Option String) : List String :=
  match inputName with
  | some n => [n]
  | none => micFallback

/-- Wording of the mute confirmation (source lines 315-319). -/
def muteVerb (mute : Bool) : String := if mute then "muted" else "unmuted"

/-- The all-candidates-failed message of `setMicMute`
(source line 332). -/
def micNotFoundMsg (tried : List String) (avail : List String) : String :=
  "MIC_NOT_FOUND: Could not find mic input. Tried: [" ++
    String.intercalate ", " tried ++ "]. Available inputs: [" ++
    String.intercalate ", " avail ++ "]"

/-- The candidate loop of `setMicMute` (source lines 309-323): try each
name with `SetInputMute`, stop at the first one the controller accepts,
swallowing each rejection.  Returns the accepted name (if any) and the
names tried, in order. -/
def micLoop (accepts : String → Bool) : List String → Option String × List String
  | [] => (none, [])
  | n :: ns =>
    if accepts n then (some n, [n])
    else
      let r := micLoop accepts ns
      (r.1, n :: r.2)

/-- `setMicMute()` (source lines 290-335).  `accepts` is the controller
oracle saying which input names the `SetInputMute` RPC accepts;
`availInputs` is what `GetInputList` reports.  Returns the result, the
list of names tried with `SetInputMute` (in order), and the other RPCs
issued. -/
def setMicMute (mute : Bool) (inputName : Option String) (st : CState)
    (accepts : String → Bool) (availInputs : List String) :
    Except String OpRes × List String × List String :=
  match ensureConnected st with
  | Except.error e => (Except.error e, [], [])
  | Except.ok _ =>
    let cands := micCandidates inputName
    match micLoop accepts cands with
    | (some n, tried) => (Except.ok ⟨true, n ++ " " ++ muteVerb mute⟩, tried, [])
    | (none, tried) =>
      (Except.ok ⟨false, micNotFoundMsg cands availInputs⟩, tried, ["GetInputList"])

/-- The `SOURCE_NOT_FOUND` mapping message of `setSourceVisibility`
(source line 372). -/
def sourceNotFoundMsg (source scene : String) : String :=
  "SOURCE_NOT_FOUND: \"" ++ source ++ "\" not found in scene \"" ++ scene ++
    "\". Check exact source and scene names in OBS."

/-- The catch classifier of `setSourceVisibility` (source line 369):
the transport error message includes `NotFound` or `600`. -/
def isNotFoundErr (msg : String) : Bool := strHasSub "NotFound" msg || strHasSub "600" msg

/-- `setSourceVisibility()` (source lines 339-378).  `getId` is the
outcome of the `GetSceneItemId` RPC and `setEnabled` that of
`SetSceneItemEnabled` for a given item id.  A transport error of either
call is mapped to a `SOURCE_NOT_FOUND` domain result when
not-found-class, and rethrown unchanged otherwise. -/
def setSourceVisibility (sceneName sourceName : String) (visible : Bool) (st : CState)
    (getId : Except String Nat) (setEnabled : Nat → Except String Unit) :
    Except String OpRes × List String :=
  match ensureConnected st with
  | Except.error e => (Except.error e, [])
  | Except.ok _ =>
    match getId with
    | Except.error e =>
      if isNotFoundErr e then
        (Except.ok ⟨false, sourceNotFoundMsg sourceName sceneName⟩, ["GetSceneItemId"])
      else (Except.error e, ["GetSceneItemId"])
    | Except.ok itemId =>
      match setEnabled itemId with
      | Except.error e =>
        if isNotFoundErr e then
          (Except.ok ⟨false, sourceNotFoundMsg sourceName sceneName⟩,
            ["GetSceneItemId", "SetSceneItemEnabled"])
        else (Except.error e, ["GetSceneItemId", "SetSceneItemEnabled"])
      | Except.ok _ =>
        (Except.ok ⟨true, sourceName ++ " in " ++ sceneName ++ " set to " ++
          (if visible then "visible" else "hidden")⟩,
          ["GetSceneItemId", "SetSceneItemEnabled"])

/-! ## Status aggregation

Embedding of `getStatus()` (source lines 382-439) and `isConnected()`
(lines 443-445).  The five concurrent sub-queries are abstracted as an
oracle of `Except` results; `Promise.all` rejects when any of the four
non-stats queries fails, and the `GetStats` query carries its own
best-effort `.catch(() => null)`. -/

/-- Reply of `GetStreamStatus` / `GetRecordStatus` as used by the
client: `outputActive` and `outputTimecode`. -/
structure OutputStat where
  active : Bool
  timecode : String
deriving DecidableEq

/-- Reply of `GetStats` as used by the client (metric values
abstracted as integers). -/
structure StatsReply where
  cpu : Int
  mem : Int
  fps : Int
deriving DecidableEq

/-- The outcomes of the five status sub-queries. -/
structure StatusReplies where
  stream : Except String OutputStat
  record : Except String OutputStat
  scene : Except String String
  sceneList : Except String (List String)
  stats : Except String StatsReply

/-- The `OBSStatus` snapshot shape (source lines 33-44); fields typed
`T | null` in the source are `Option` here. -/
structure OBSStatus where
  connected : Bool
  streaming : Bool
  recording : Bool
  currentScene : String
  availableScenes : List String
  streamTimecode : Option String
  recordTimecode : Option String
  cpuUsage : Option Int
  memoryUsage : Option Int
  fps : Option Int
deriving DecidableEq

/-- JavaScript `timecode || null`: the empty string is falsy. -/
def timecodeOrNull (s : String) : Option String :=
  if s = "" then none else some s

/-- Did an `Except`-modelled RPC fail? -/
def exceptFailed {α : Type} (x : Except String α) : Bool :=
  match x with
  | Except.error _ => true
  | Except.ok _ => false

/-- The snapshot returned while disconnected (source lines 383-396). -/
def disconnectedSnapshot : OBSStatus :=
  ⟨false, false, false, "N/A", [], none, none, none, none, none⟩

/-- The snapshot returned when the aggregated fetch fails
(source lines 426-437). -/
def errorSnapshot : OBSStatus :=
  ⟨false, false, false, "ERROR", [], none, none, none, none, none⟩

/-- `getStatus()` (source lines 382-439): returns the snapshot, the
(unchanged) client state, and the RPC names issued.  The function is
total: it never throws. -/
def getStatus (st : CState) (o : StatusReplies) : OBSStatus × CState × List String :=
  if !st.connected then (disconnectedSnapshot, st, [])
  else
    let calls := ["GetStreamStatus", "GetRecordStatus", "GetCurrentProgramScene",
      "GetSceneList", "GetStats"]
    match o.stream, o.record, o.scene, o.sceneList with
    | Except.ok ss, Except.ok rs, Except.ok sc, Except.ok sl =>
      let stats := o.stats.toOption
      (⟨true, ss.active, rs.active, sc, sl,
        timecodeOrNull ss.timecode, timecodeOrNull rs.timecode,
        stats.map StatsReply.cpu, stats.map StatsReply.mem, stats.map StatsReply.fps⟩,
        st, calls)
    | _, _, _, _ => (errorSnapshot, st, calls)

/-- `isConnected()` (source lines 443-445). -/
def isConnected (st : CState) : Bool := st.connected

/-- JavaScript-level runtime value of a snapshot field, used to state
nullability claims faithfully: an `Option.none` field serialises to
`null`, everything else to a non-null value. -/
inductive JsVal where
  | null
  | str (s : String)
  | num (n : Int)
  | arr (l : List String)
deriving DecidableEq

/-- The snapshot fields the nullability claim is about. -/
inductive StatusField where
  | currentScene
  | availableScenes
  | streamTimecode
  | recordTimecode
  | cpuUsage
  | memoryUsage
  | fps
deriving DecidableEq

/-- Runtime value of an optional string field. -/
def optStrVal : Option String → JsVal
  | none => JsVal.null
  | some s => JsVal.str s

/-- Runtime value of an optional numeric field. -/
def optNumVal : Option Int → JsVal
  | none => JsVal.null
  | some n => JsVal.num n

/-- Runtime value of each snapshot field named by the claim. -/
def fieldVal (s : OBSStatus) : StatusField → JsVal
  | StatusField.currentScene => JsVal.str s.currentScene
  | StatusField.availableScenes => JsVal.arr s.availableScenes
  | StatusField.streamTimecode => optStrVal s.streamTimecode
  | StatusField.recordTimecode => optStrVal s.recordTimecode
  | StatusField.cpuUsage => optNumVal s.cpuUsage
  | StatusField.memoryUsage => optNumVal s.memoryUsage
  | StatusField.fps => optNumVal s.fps

/-! ## Command serializer

Embedding of `serialize()` (source lines 151-161).  Each call to
`serialize` synchronously snapshots the current `commandQueue` promise
as `prev`, installs a fresh bookkeeping promise, awaits `prev`, runs the
operation body, and resolves its own bookkeeping promise in a `finally`
cleanup, i.e. regardless of whether the body returned or threw.
Bookkeeping promises are only ever resolved, never rejected, so the
`await prev` suspension itself cannot throw.

We model a batch of serialized operations as a list of `Work` items in
queue (= invocation) order; each item carries the RPC calls its body
would issue and whether the body ends by throwing.  An execution is an
arbitrary scheduler interleaving of the per-operation event sequences
(`begun`, the `rpc` calls in program order, `done`), subject to the one
constraint the promise chain imposes: operation `i` may emit its first
event only once operation `i - 1` has emitted all of its events -
including its `done`, which the `finally` emits also for throwing
bodies.  The theorems show this constraint forces every complete
schedule to be the single FIFO, non-interleaved trace, and that this
complete trace is reachable whatever the bodies' outcomes. -/

/-- A serialized operation: the RPC calls its body issues (in program
order) and whether the body terminates by throwing. -/
structure Work where
  calls : List String
  failed : Bool
deriving DecidableEq

/-- Events observable at the controller boundary: operation `i` begins
its body, issues its `k`-th RPC, or completes (successfully or not,
releasing its queue slot). -/
inductive SEv where
  | begun (i : Nat)
  | rpc (i : Nat) (k : Nat) (name : String)
  | done (i : Nat)
deriving DecidableEq

/-- The RPC events of operation `i`, numbered from `k`. -/
def rpcEvs (i : Nat) : Nat → List String → List SEv
  | _, [] => []
  | k, c :: cs => SEv.rpc i k c :: rpcEvs i (k + 1) cs

/-- The full program-order event sequence of operation `i`: note `done`
is emitted independently of `Work.failed`, mirroring the `finally`
cleanup of `serialize`. -/
def opEvents (i : Nat) (w : Work) : List SEv :=
  SEv.begun i :: (rpcEvs i 0 w.calls ++ [SEv.done i])

/-- Event sequence of the `i`-th queued operation. -/
def seqAt (ws : List Work) (i : Nat) : List SEv := opEvents i (ws.getD i ⟨[], false⟩)

/-- Number of events of the `i`-th queued operation. -/
def lenAt (ws : List Work) (i : Nat) : Nat := (seqAt ws i).length

/-- Progress vector update: operation `i` emitted one more event. -/
def stepUpd (p : Nat → Nat) (i : Nat) : Nat → Nat := fun j => if j = i then p i + 1 else p j

/-- One scheduler step: some not-yet-finished operation `i` emits its
next event.  The only gating is the promise-chain condition `hgate`:
the first event of operation `i` requires its predecessor to have
finished (the predecessor's bookkeeping promise resolves, in `finally`,
exactly when its event sequence is exhausted). -/
inductive SerStep (ws : List Work) (p : Nat → Nat) : SEv → (Nat → Nat) → Prop where
  | mk (i : Nat) (hi : i < ws.length) (hp : p i < lenAt ws i)
      (hgate : p i = 0 → 0 < i → p (i - 1) = lenAt ws (i - 1)) :
      SerStep ws p ((seqAt ws i).getD (p i) (SEv.done 0)) (stepUpd p i)

/-- A scheduler run: the reflexive-transitive closure of `SerStep`,
accumulating the trace of emitted events. -/
inductive SerRun (ws : List Work) : (Nat → Nat) → List SEv → (Nat → Nat) → Prop where
  | nil (p : Nat → Nat) : SerRun ws p [] p
  | cons {p : Nat → Nat} {e : SEv} {q : Nat → Nat} {t : List SEv} {r : Nat → Nat} :
      SerStep ws p e q → SerRun ws q t r → SerRun ws p (e :: t) r

/-- Initial progress: nothing has run. -/
def initProg : Nat → Nat := fun _ => 0

/-- Final progress: every queued operation has emitted all its
events. -/
def fullProg (ws : List Work) : Nat → Nat :=
  fun j => if j < ws.length then lenAt ws j else 0

/-- The canonical strictly sequential trace from operation `k` on,
with `fuel` operations remaining. -/
def canonAux (ws : List Work) : Nat → Nat → List SEv
  | _, 0 => []
  | k, fuel + 1 => seqAt ws k ++ canonAux ws (k + 1) fuel

/-- The canonical trace: the blocks of the queued operations, in FIFO
order, each block contiguous. -/
def canonical (ws : List Work) : List SEv := canonAux ws 0 ws.length

/-- Normal form of reachable progress vectors: operations before `k`
finished, operation `k` has emitted `c` events, later operations
untouched. -/
def normProg (ws : List Work) (k c : Nat) : Nat → Nat :=
  fun j => if j < k then lenAt ws j else if j = k then c else 0

/-- The canonical trace still to be emitted from normal form
`(k, c)`. -/
def tailCanon (ws : List Work) (k c : Nat) : List SEv :=
  if k < ws.length then
    (seqAt ws k).drop c ++ canonAux ws (k + 1) (ws.length - (k + 1))
  else []

/-! ## Decidable equality for `Except`

Used only to evaluate concrete operation outcomes in witnesses. -/

instance {ε α : Type} [DecidableEq ε] [DecidableEq α] : DecidableEq (Except ε α) := fun x y =>
  match x, y with
  | Except.ok a, Except.ok b =>
    if h : a = b then Decidable.isTrue (by rw [h])
    else Decidable.isFalse (by intro hc; injection hc; exact h (by assumption))
  | Except.ok _, Except.error _ => Decidable.isFalse (by intro hc; exact Except.noConfusion hc)
  | Except.error _, Except.ok _ => Decidable.isFalse (by intro hc; exact Except.noConfusion hc)
  | Except.error a, Except.error b =>
    if h : a = b then Decidable.isTrue (by rw [h])
    else Decidable.isFalse (by intro hc; injection hc; exact h (by assumption))

/-! ## Concrete fixtures

Concrete inputs used by the witnesses and counterexamples below. -/

/-- A fresh client state: never connected, no attempts made. -/
def freshState : CState := ⟨false, false, 0⟩

/-- A connected client state. -/
def connState : CState := ⟨true, false, 0⟩

/-- Handshake oracle: every attempt is refused. -/
def oracleRefused : Nat → Option String := fun _ => some "ECONNREFUSED"

/-- Handshake oracle: every attempt fails with a message that contains
both the substring counted as authentication-class by the claim and
the connection-refused marker. -/
def oracleAuthRefused : Nat → Option String := fun _ => some "auth ECONNREFUSED"

/-- Handshake oracle: every attempt fails with a pure
authentication error. -/
def oracleAuth : Nat → Option String := fun _ => some "Authentication failed"

/-- Jitter draws all equal to factor 1.0. -/
def jitFlat : Nat → Nat := fun _ => 1000

/-- Jitter draws of factor 1.0 except a 0.7 draw before the 7th retry:
an admissible run in which a later slept delay is smaller than an
earlier one once the delay cap is reached. -/
def jitDip : Nat → Nat := fun n => if n = 7 then 700 else 1000

/-- A two-retry configuration for compact witnesses. -/
def cfgTwo : ConnCfg := ⟨2, 1000, 30000⟩

/-- A one-retry configuration for compact witnesses. -/
def cfgOne : ConnCfg := ⟨1, 1000, 30000⟩

/-- Status oracle whose five sub-queries all succeed (with empty
content). -/
def repliesAllOk : StatusReplies :=
  ⟨Except.ok ⟨false, ""⟩, Except.ok ⟨false, ""⟩, Except.ok "", Except.ok [], Except.ok ⟨0, 0, 0⟩⟩

/-- Status oracle whose `GetCurrentProgramScene` sub-query fails. -/
def repliesSceneFails : StatusReplies :=
  ⟨Except.ok ⟨false, ""⟩, Except.ok ⟨false, ""⟩, Except.error "socket closed", Except.ok [],
    Except.ok ⟨0, 0, 0⟩⟩

/-- Status oracle where only the best-effort `GetStats` sub-query
fails. -/
def repliesStatsFail : StatusReplies :=
  ⟨Except.ok ⟨true, "00:01:02"⟩, Except.ok ⟨false, ""⟩, Except.ok "Main", Except.ok ["Main"],
    Except.error "GetStats unavailable"⟩

/-- A concrete serialized batch: a stream start, then a failing scene
switch, then an empty body; the middle operation throwing must not
stall the queue. -/
def wsBatch : List Work :=
  [⟨["GetStreamStatus", "StartStream"], false⟩, ⟨["GetSceneList"], true⟩, ⟨[], false⟩]

/-- The sequence of slept backoff delays of an all-failing retry run:
starting after the `r`-th failure, with `m` sleeps remaining, the next
sleep is the un-jittered delay of retry `r + 1` times its jitter
draw. -/
def sleepsFrom (cfg : ConnCfg) (jit : Nat → Nat) : Nat → Nat → List Nat
  | _, 0 => []
  | r, m + 1 => rawDelay cfg (r + 1) * jit (r + 1) :: sleepsFrom cfg jit (r + 1) m

/-! ## Substring lemmas -/

/-- A list starts with itself, whatever follows. -/
theorem listStartsWith_self (p r : List Char) : listStartsWith p (p ++ r) = true := by
  induction p with
  | nil => rfl
  | cons c cs ih => simp [listStartsWith, ih]

/-- A pattern is found in any target that contains it contiguously. -/
theorem listHasSub_self_append (p b : List Char) : listHasSub p (p ++ b) = true := by
  cases p with
  | nil => cases b <;> simp [listHasSub, listStartsWith, List.isEmpty]
  | cons c cs =>
    have h := listStartsWith_self (c :: cs) b
    simp only [List.cons_append] at h ⊢
    simp [listHasSub, h]

/-- Substring search succeeds on any explicit decomposition
`a ++ (p ++ b)` of the target. -/
theorem listHasSub_mid (p a b : List Char) : listHasSub p (a ++ (p ++ b)) = true := by
  induction a with
  | nil => simpa using listHasSub_self_append p b
  | cons x xs ih => simp [listHasSub, ih]

/-- Substring search in terms of a decomposition witness. -/
theorem listHasSub_infixed (p t a b : List Char) (h : t = a ++ (p ++ b)) :
    listHasSub p t = true := by rw [h]; exact listHasSub_mid p a b

/-- String-level form of `listHasSub_infixed`. -/
theorem strHasSub_infixed (p t a b : String) (h : t.toList = a.toList ++ (p.toList ++ b.toList)) :
    strHasSub p t = true := listHasSub_infixed p.toList t.toList a.toList b.toList h

/-! ## Claim C2

The claim defines authentication-class by the error message containing
`Authentication` or `auth`.  The source classifies with an
`if/else if` chain in which the `ECONNREFUSED` test comes first, so a
message containing both markers is treated as connection-refused and
retried; the claim as stated fails on such a message.  The amended
claim restricts authentication-class to messages that are not also
refused-class. -/

/-- Claim C2 (corrected), counterexample: the first handshake attempt
fails with the message `auth ECONNREFUSED`, which contains `auth` and
is therefore authentication-class as the claim defines it; yet
`connect()` does not throw `AUTH_FAILED` after one attempt: it retries,
sleeps, and exhausts all 11 attempts. -/
theorem claim_C2_cex :
    strHasSub "auth" "auth ECONNREFUSED" = true
    ∧ (connect defaultCfg oracleAuthRefused jitFlat freshState).attempts = 11
    ∧ (connect defaultCfg oracleAuthRefused jitFlat freshState).result
        = ConnResult.exhausted (exhaustedMsg 10 "auth ECONNREFUSED")
    ∧ (connect defaultCfg oracleAuthRefused jitFlat freshState).sleeps ≠ [] := by
  refine ⟨by decide, by decide, by decide, by decide⟩

/-- Claim C2 (amended): on a fresh client, if the first handshake
attempt fails with an authentication-class error message (containing
`Authentication` or `auth`) that is not also connection-refused-class
(the source tests `ECONNREFUSED` first), `connect()` throws
`AUTH_FAILED` immediately: exactly one handshake attempt, no retry and
no backoff sleep, and the client ends not connected and not
connecting. -/
theorem claim_C2_auth_immediate (cfg : ConnCfg) (oracle : Nat → Option String)
    (jit : Nat → Nat) (msg : String) (h0 : oracle 0 = some msg)
    (hauth : isAuthErr msg = true) (href : isRefusedErr msg = false) :
    connect cfg oracle jit ⟨false, false, 0⟩ =
      ⟨ConnResult.authFailed authFailedMsg, ⟨false, false, 1⟩, 1, []⟩ := by
  show connect cfg oracle jit ⟨false, false, 0⟩ = _
  unfold connect
  have hguard : (false || false) = false := rfl
  simp only [hguard, if_false]
  have hfuel : cfg.maxRetries + 1 - (0 : Nat) = cfg.maxRetries + 1 := rfl
  rw [hfuel]
  unfold connectLoop
  rw [h0]
  simp [href, hauth]

/-- Witness for the amended C2 at a concrete input: a pure
authentication failure aborts after one attempt with no sleeps. -/
theorem claim_C2_witness :
    connect defaultCfg oracleAuth jitFlat ⟨false, false, 0⟩ =
      ⟨ConnResult.authFailed authFailedMsg, ⟨false, false, 1⟩, 1, []⟩ :=
  claim_C2_auth_immediate defaultCfg oracleAuth jitFlat "Authentication failed" rfl
    (by decide) (by decide)

/-! ## Claim C3 loop lemmas -/

/-- Length of the slept-delay sequence. -/
theorem sleepsFrom_length (cfg : ConnCfg) (jit : Nat → Nat) :
    ∀ m r, (sleepsFrom cfg jit r m).length = m := by
  intro m
  induction m with
  | zero => intro r; rfl
  | succ g ih => intro r; simp [sleepsFrom, ih (r + 1)]

/-- The `k`-th slept delay of an all-failing run starting after the
`r`-th failure. -/
theorem sleepsFrom_getD (cfg : ConnCfg) (jit : Nat → Nat) :
    ∀ m r k, k < m → (sleepsFrom cfg jit r m).getD k 0
      = rawDelay cfg (r + k + 1) * jit (r + k + 1) := by
  intro m
  induction m with
  | zero => intro r k hk; omega
  | succ g ih =>
    intro r k hk
    cases k with
    | zero => rfl
    | succ j =>
      have h1 : (sleepsFrom cfg jit r (g + 1)).getD (j + 1) 0
          = (sleepsFrom cfg jit (r + 1) g).getD j 0 := rfl
      have h2 := ih (r + 1) j (by omega)
      have h3 : r + 1 + j + 1 = r + (j + 1) + 1 := by omega
      rw [h1, h2, h3]

/-- One-step unfolding of the retry loop at a non-throwing failure:
the attempt fails, the classification neither throws `AUTH_FAILED` nor
exhausts, the jittered delay is slept, and the loop recurses. -/
theorem connectLoop_fail_step (cfg : ConnCfg) (oracle : Nat → Option String)
    (jit : Nat → Nat) (fuel : Nat) (st : CState) (aIdx : Nat) (msg : String)
    (hmsg : oracle aIdx = some msg)
    (hcls : (!isRefusedErr msg && isAuthErr msg) = false)
    (hle : ¬ (cfg.maxRetries < st.retryCount + 1)) :
    connectLoop cfg oracle jit (fuel + 1) st aIdx =
      ⟨(connectLoop cfg oracle jit fuel { st with retryCount := st.retryCount + 1 }
          (aIdx + 1)).result,
       (connectLoop cfg oracle jit fuel { st with retryCount := st.retryCount + 1 }
          (aIdx + 1)).state,
       (connectLoop cfg oracle jit fuel { st with retryCount := st.retryCount + 1 }
          (aIdx + 1)).attempts + 1,
       rawDelay cfg (st.retryCount + 1) * jit (st.retryCount + 1) ::
         (connectLoop cfg oracle jit fuel { st with retryCount := st.retryCount + 1 }
            (aIdx + 1)).sleeps⟩ := by
  simp only [connectLoop, hmsg, hcls, Bool.false_eq_true, if_false]
  rw [if_neg hle]

/-- On an oracle whose every attempt fails refused-class, the retry
loop runs its full fuel, sleeping the jittered delay after every
failure but the last, and throws the exhaustion error carrying the
message of the last attempt.  The final state has `connecting` cleared
and `retryCount` one past `maxRetries`. -/
theorem connectLoop_refused (cfg : ConnCfg) (oracle : Nat → Option String) (jit : Nat → Nat)
    (msgs : Nat → String) (ho : ∀ n, oracle n = some (msgs n))
    (href : ∀ n, isRefusedErr (msgs n) = true) :
    ∀ fuel st aIdx, st.retryCount + fuel = cfg.maxRetries + 1 → 0 < fuel →
      connectLoop cfg oracle jit fuel st aIdx =
        ⟨ConnResult.exhausted (exhaustedMsg cfg.maxRetries (msgs (aIdx + (fuel - 1)))),
         ⟨st.connected, false, cfg.maxRetries + 1⟩, fuel,
         sleepsFrom cfg jit st.retryCount (fuel - 1)⟩ := by
  intro fuel
  induction fuel with
  | zero => intro st aIdx hsum hpos; omega
  | succ f ih =>
    intro st aIdx hsum _
    have hcls : (!isRefusedErr (msgs aIdx) && isAuthErr (msgs aIdx)) = false := by
      rw [href aIdx]; rfl
    cases f with
    | zero =>
      have hrc : st.retryCount = cfg.maxRetries := by omega
      simp only [connectLoop, ho aIdx, hcls, Bool.false_eq_true, if_false]
      rw [if_pos (by omega : cfg.maxRetries < st.retryCount + 1)]
      simp [sleepsFrom, hrc]
    | succ g =>
      have hlt : ¬ (cfg.maxRetries < st.retryCount + 1) := by omega
      have hih := ih { st with retryCount := st.retryCount + 1 } (aIdx + 1)
        (by omega : st.retryCount + 1 + (g + 1) = cfg.maxRetries + 1) (by omega)
      rw [connectLoop_fail_step cfg oracle jit (g + 1) st aIdx (msgs aIdx) (ho aIdx) hcls hlt]
      rw [hih]
      have harg : aIdx + 1 + g = aIdx + (g + 1) := by omega
      simp [sleepsFrom, harg]

/-- The un-jittered delays are non-decreasing in the retry number. -/
theorem rawDelay_mono (cfg : ConnCfg) (k : Nat) : rawDelay cfg k ≤ rawDelay cfg (k + 1) := by
  unfold rawDelay
  refine min_le_min ?_ le_rfl
  exact Nat.mul_le_mul_left cfg.baseDelay (Nat.pow_le_pow_right (by omega) (by omega))

/-! ## Claim C3

The claim asserts, among the (correct) attempt count, delay formula,
exhaustion error and final state, that the successive slept delays are
strictly non-decreasing across attempts.  That fails: once the
exponential term reaches the `maxDelay` cap the un-jittered delay is
constant, and a smaller jitter draw on a later attempt makes the later
slept delay smaller.  The amendment keeps every other conjunct and
weakens the monotonicity to the un-jittered delays, bounding each slept
delay by jitter times the un-jittered delay. -/

/-- Claim C3 (corrected), counterexample: with every attempt refused
and admissible jitter draws of 1.0 before the 6th retry and 0.7 before
the 7th, the 7th slept delay (21000ms, scaled by 1000) is strictly
smaller than the 6th (30000ms, scaled by 1000): the slept delays are
not non-decreasing. -/
theorem claim_C3_cex :
    (700 ≤ jitDip 6 ∧ jitDip 6 < 1300)
    ∧ (700 ≤ jitDip 7 ∧ jitDip 7 < 1300)
    ∧ (connect defaultCfg oracleRefused jitDip freshState).sleeps.getD 5 0 = 30000 * 1000
    ∧ (connect defaultCfg oracleRefused jitDip freshState).sleeps.getD 6 0 = 30000 * 700
    ∧ (connect defaultCfg oracleRefused jitDip freshState).sleeps.getD 6 0
        < (connect defaultCfg oracleRefused jitDip freshState).sleeps.getD 5 0 := by
  refine ⟨by decide, by decide, by decide, by decide, by decide⟩

/-- Claim C3 (amended): on a fresh client whose every handshake attempt
fails with a connection-refused error, `connect()` makes exactly
`maxRetries + 1` attempts (the initial one plus `maxRetries` retries),
sleeps exactly `maxRetries` times, the `k`-th slept delay (0-based)
being `min(baseDelay * 2^k, maxDelay)` times the jitter draw of retry
`k + 1`, throws the exhaustion error carrying the last underlying error
message, and ends not connected (and not connecting) with the attempt
counter one past `maxRetries`.  The un-jittered delays are
non-decreasing, and each slept delay lies between 0.7 and 1.3 times its
un-jittered delay; but the slept delays themselves need not be
non-decreasing once the cap is reached. -/
theorem claim_C3_retry_exhaustion (cfg : ConnCfg) (oracle : Nat → Option String)
    (jit : Nat → Nat) (msgs : Nat → String)
    (ho : ∀ n, oracle n = some (msgs n))
    (href : ∀ n, isRefusedErr (msgs n) = true)
    (hj : ∀ n, 700 ≤ jit n ∧ jit n < 1300) :
    (connect cfg oracle jit freshState).result
        = ConnResult.exhausted (exhaustedMsg cfg.maxRetries (msgs cfg.maxRetries))
    ∧ (connect cfg oracle jit freshState).attempts = cfg.maxRetries + 1
    ∧ (connect cfg oracle jit freshState).state = ⟨false, false, cfg.maxRetries + 1⟩
    ∧ (connect cfg oracle jit freshState).sleeps.length = cfg.maxRetries
    ∧ (∀ k, k < cfg.maxRetries →
        (connect cfg oracle jit freshState).sleeps.getD k 0
          = rawDelay cfg (k + 1) * jit (k + 1))
    ∧ (∀ k, rawDelay cfg k ≤ rawDelay cfg (k + 1))
    ∧ (∀ k, k < cfg.maxRetries →
        700 * rawDelay cfg (k + 1) ≤ (connect cfg oracle jit freshState).sleeps.getD k 0
        ∧ (connect cfg oracle jit freshState).sleeps.getD k 0
            ≤ 1300 * rawDelay cfg (k + 1)) := by
  have hloop := connectLoop_refused cfg oracle jit msgs ho href (cfg.maxRetries + 1)
    ⟨false, true, 0⟩ 0
    (show (0 : Nat) + (cfg.maxRetries + 1) = cfg.maxRetries + 1 by omega) (by omega)
  have hconn : connect cfg oracle jit freshState
      = connectLoop cfg oracle jit (cfg.maxRetries + 1) ⟨false, true, 0⟩ 0 := rfl
  have hrw : connect cfg oracle jit freshState =
      ⟨ConnResult.exhausted (exhaustedMsg cfg.maxRetries (msgs cfg.maxRetries)),
       ⟨false, false, cfg.maxRetries + 1⟩, cfg.maxRetries + 1,
       sleepsFrom cfg jit 0 cfg.maxRetries⟩ := by
    rw [hconn, hloop]; simp
  rw [hrw]
  refine ⟨rfl, rfl, rfl, ?_, ?_, fun k => rawDelay_mono cfg k, ?_⟩
  · exact sleepsFrom_length cfg jit cfg.maxRetries 0
  · intro k hk
    have h := sleepsFrom_getD cfg jit cfg.maxRetries 0 k hk
    simpa using h
  · intro k hk
    have h := sleepsFrom_getD cfg jit cfg.maxRetries 0 k hk
    have h0 : (0 : Nat) + k + 1 = k + 1 := by omega
    rw [h0] at h
    simp only [h]
    constructor
    · calc 700 * rawDelay cfg (k + 1) = rawDelay cfg (k + 1) * 700 := by ring
        _ ≤ rawDelay cfg (k + 1) * jit (k + 1) :=
          Nat.mul_le_mul_left _ (hj (k + 1)).1
    · calc rawDelay cfg (k + 1) * jit (k + 1) ≤ rawDelay cfg (k + 1) * 1300 :=
          Nat.mul_le_mul_left _ (by have := (hj (k + 1)).2; omega)
        _ = 1300 * rawDelay cfg (k + 1) := by ring

/-- Witness for the amended C3 at a concrete input: two retries with
flat jitter 1.0 sleep 1000ms then 2000ms (scaled by 1000) and exhaust
after 3 attempts. -/
theorem claim_C3_witness :
    (connect cfgTwo oracleRefused jitFlat freshState).attempts = 3
    ∧ (connect cfgTwo oracleRefused jitFlat freshState).result
        = ConnResult.exhausted (exhaustedMsg 2 "ECONNREFUSED")
    ∧ (connect cfgTwo oracleRefused jitFlat freshState).sleeps.getD 0 0
        = rawDelay cfgTwo 1 * jitFlat 1
    ∧ (connect cfgTwo oracleRefused jitFlat freshState).sleeps.getD 1 0
        = rawDelay cfgTwo 2 * jitFlat 2 := by
  have ho : ∀ n, oracleRefused n = some ((fun _ : Nat => "ECONNREFUSED") n) := by
    intro n; rfl
  have href : ∀ n, isRefusedErr ((fun _ : Nat => "ECONNREFUSED") n) = true := by
    intro n
    show isRefusedErr "ECONNREFUSED" = true
    decide
  have hj : ∀ n, 700 ≤ jitFlat n ∧ jitFlat n < 1300 := by
    intro n
    show 700 ≤ 1000 ∧ 1000 < 1300
    decide
  have h := claim_C3_retry_exhaustion cfgTwo oracleRefused jitFlat
    (fun _ => "ECONNREFUSED") ho href hj
  exact ⟨h.2.1, h.1, h.2.2.2.2.1 0 (by decide), h.2.2.2.2.1 1 (by decide)⟩

/-! ## Claim C9

After `connect()` throws the exhaustion error, `retryCount` is one past
`maxRetries` and is never reset (the only reset sits in the success
branch).  The next `connect()` call therefore computes fuel zero: the
`while` guard is false on entry, no handshake attempt is issued, the
call returns normally, and `connecting` - set on entry - is never
cleared on this exit path.  Every later `connect()` then hits the early
return, and `scheduleReconnect()` never fires the timer because
`connecting` stays true. -/

/-- Whenever the retry loop throws the exhaustion error, the final
state keeps the `connected` flag it started with, has `connecting`
cleared, and has an attempt counter strictly beyond `maxRetries`. -/
theorem connectLoop_exhausted_state (cfg : ConnCfg) (oracle : Nat → Option String)
    (jit : Nat → Nat) :
    ∀ fuel st aIdx m,
      (connectLoop cfg oracle jit fuel st aIdx).result = ConnResult.exhausted m →
      (connectLoop cfg oracle jit fuel st aIdx).state.connected = st.connected
      ∧ (connectLoop cfg oracle jit fuel st aIdx).state.connecting = false
      ∧ cfg.maxRetries < (connectLoop cfg oracle jit fuel st aIdx).state.retryCount := by
  intro fuel
  induction fuel with
  | zero =>
    intro st aIdx m h
    exact absurd h (by simp [connectLoop])
  | succ f ih =>
    intro st aIdx m h
    cases hor : oracle aIdx with
    | none =>
      simp only [connectLoop, hor] at h
      exact absurd h (by simp)
    | some msg =>
      simp only [connectLoop, hor] at h ⊢
      by_cases hc1 : (!isRefusedErr msg && isAuthErr msg) = true
      · rw [if_pos hc1] at h
        exact absurd h (by simp)
      · by_cases hc2 : cfg.maxRetries < st.retryCount + 1
        · rw [if_neg hc1, if_pos hc2] at h ⊢
          exact ⟨rfl, rfl, hc2⟩
        · rw [if_neg hc1, if_neg hc2] at h ⊢
          exact ih { st with retryCount := st.retryCount + 1 } (aIdx + 1) m h

/-- Claim C9: once a `connect()` call on a disconnected, non-connecting
client has thrown the retry-exhaustion error, the attempt counter
stands beyond `maxRetries` and is never reset; the next `connect()`
call (in particular the one the `ConnectionClosed` handler schedules
3 seconds later) issues zero handshake attempts, returns without error
through the loop fall-through, and leaves `connecting` permanently
true; every further `connect()` call is then a no-op that changes
nothing, and `scheduleReconnect()` never arms the reconnect timer
again. -/
theorem claim_C9_no_reconnect_after_exhaustion (cfg : ConnCfg)
    (o1 o2 : Nat → Option String) (j1 j2 : Nat → Nat) (st : CState) (m : String)
    (hc : st.connected = false) (hg : st.connecting = false)
    (hex : (connect cfg o1 j1 st).result = ConnResult.exhausted m) :
    (connect cfg o1 j1 st).state.connected = false
    ∧ (connect cfg o1 j1 st).state.connecting = false
    ∧ cfg.maxRetries < (connect cfg o1 j1 st).state.retryCount
    ∧ (connect cfg o2 j2 (connect cfg o1 j1 st).state).attempts = 0
    ∧ (connect cfg o2 j2 (connect cfg o1 j1 st).state).sleeps = []
    ∧ (connect cfg o2 j2 (connect cfg o1 j1 st).state).result = ConnResult.loopExit
    ∧ (connect cfg o2 j2 (connect cfg o1 j1 st).state).state.connecting = true
    ∧ (connect cfg o2 j2 (connect cfg o1 j1 st).state).state.retryCount
        = (connect cfg o1 j1 st).state.retryCount
    ∧ (∀ o3 j3, connect cfg o3 j3 (connect cfg o2 j2 (connect cfg o1 j1 st).state).state
        = ⟨ConnResult.noop, (connect cfg o2 j2 (connect cfg o1 j1 st).state).state, 0, []⟩)
    ∧ scheduleReconnect (connect cfg o2 j2 (connect cfg o1 j1 st).state).state = false := by
  have hg1 : connect cfg o1 j1 st
      = connectLoop cfg o1 j1 (cfg.maxRetries + 1 - st.retryCount)
          { st with connecting := true } 0 := by
    unfold connect
    rw [hc, hg]
    simp
  have hst1 := connectLoop_exhausted_state cfg o1 j1 (cfg.maxRetries + 1 - st.retryCount)
    { st with connecting := true } 0 m (by rw [← hg1]; exact hex)
  rw [← hg1] at hst1
  obtain ⟨h1, h2, h3⟩ := hst1
  have h1f : (connect cfg o1 j1 st).state.connected = false := by
    rw [h1]; exact hc
  have hfuel2 : cfg.maxRetries + 1 - (connect cfg o1 j1 st).state.retryCount = 0 :=
    Nat.sub_eq_zero_of_le (by omega)
  have hskip : ∀ (o : Nat → Option String) (j : Nat → Nat) (A : CState),
      A.connected = false → A.connecting = false → cfg.maxRetries + 1 - A.retryCount = 0 →
      connect cfg o j A = ⟨ConnResult.loopExit, { A with connecting := true }, 0, []⟩ := by
    intro o j A hA1 hA2 hA3
    unfold connect
    rw [hA1, hA2]
    simp only [Bool.or_false, Bool.false_eq_true, if_false]
    rw [hA3]
    rfl
  have hnoop : ∀ (o : Nat → Option String) (j : Nat → Nat) (B : CState),
      B.connecting = true → connect cfg o j B = ⟨ConnResult.noop, B, 0, []⟩ := by
    intro o j B hB
    unfold connect
    rw [hB]
    simp
  have hg2 := hskip o2 j2 (connect cfg o1 j1 st).state h1f h2 hfuel2
  refine ⟨h1f, h2, h3, ?_, ?_, ?_, ?_, ?_, ?_, ?_⟩
  · rw [hg2]
  · rw [hg2]
  · rw [hg2]
  · rw [hg2]
  · rw [hg2]
  · intro o3 j3
    rw [hg2]
    exact hnoop o3 j3 _ rfl
  · rw [hg2]
    rfl

/-- Witness for C9 at a concrete input: with one allowed retry and a
refused oracle, after the exhausted first call the rescheduled call
makes no attempt and leaves `connecting` true, and the reconnect timer
is never armed again. -/
theorem claim_C9_witness :
    (connect cfgOne oracleRefused jitFlat
        (connect cfgOne oracleRefused jitFlat freshState).state).attempts = 0
    ∧ (connect cfgOne oracleRefused jitFlat
        (connect cfgOne oracleRefused jitFlat freshState).state).state.connecting = true
    ∧ scheduleReconnect (connect cfgOne oracleRefused jitFlat
        (connect cfgOne oracleRefused jitFlat freshState).state).state = false := by
  have h := claim_C9_no_reconnect_after_exhaustion cfgOne oracleRefused oracleRefused
    jitFlat jitFlat freshState (exhaustedMsg 1 "ECONNREFUSED") rfl rfl (by decide)
  exact ⟨h.2.2.2.1, h.2.2.2.2.2.2.1, h.2.2.2.2.2.2.2.2.2⟩

/-! ## Claim C4 -/

/-- Claim C4: with safe mode enabled on a connected client whose
current scene is outside the allow-list, `startStream` returns
`success := false` with a message containing the disallowed scene name
and the joined allow-list; the only RPC issued is the scene read -
neither `GetStreamStatus` nor `StartStream` reaches the controller. -/
theorem claim_C4_startStream_safeMode (st : CState) (c : Controller) (ss : List String)
    (hconn : st.connected = true) (hscene : ss.contains c.currentScene = false) :
    (startStream true ss st c).1 = Except.ok ⟨false, safeModeMsg c.currentScene ss⟩
    ∧ strHasSub c.currentScene (safeModeMsg c.currentScene ss) = true
    ∧ strHasSub (String.intercalate ", " ss) (safeModeMsg c.currentScene ss) = true
    ∧ (startStream true ss st c).2 = ["GetCurrentProgramScene"]
    ∧ "StartStream" ∉ (startStream true ss st c).2
    ∧ "GetStreamStatus" ∉ (startStream true ss st c).2 := by
  have h1 : startStream true ss st c
      = (Except.ok ⟨false, safeModeMsg c.currentScene ss⟩, ["GetCurrentProgramScene"]) := by
    have hmem : c.currentScene ∉ ss := by simpa using hscene
    unfold startStream ensureConnected
    rw [hconn]
    simp [hmem]
  refine ⟨by rw [h1], ?_, ?_, by rw [h1], by rw [h1]; simp, by rw [h1]; simp⟩
  · apply strHasSub_infixed _ _ "SAFE_MODE: Refusing to start stream. Current scene \""
      ("\" is not in safe list [" ++ String.intercalate ", " ss ++
        "]. Switch to an approved scene first.")
    simp [safeModeMsg, String.toList]
  · apply strHasSub_infixed _ _
      ("SAFE_MODE: Refusing to start stream. Current scene \"" ++ c.currentScene ++
        "\" is not in safe list [")
      "]. Switch to an approved scene first."
    simp [safeModeMsg, String.toList]

/-- Witness for C4 at a concrete input: safe mode with allow-list
`[StartingSoon, Main]` and current scene `BRB`. -/
theorem claim_C4_witness :
    (startStream true ["StartingSoon", "Main"] connState ⟨"BRB", ["BRB", "Main"], false⟩).1
      = Except.ok ⟨false, safeModeMsg "BRB" ["StartingSoon", "Main"]⟩
    ∧ strHasSub "BRB" (safeModeMsg "BRB" ["StartingSoon", "Main"]) = true
    ∧ (startStream true ["StartingSoon", "Main"] connState ⟨"BRB", ["BRB", "Main"], false⟩).2
      = ["GetCurrentProgramScene"] := by
  have h := claim_C4_startStream_safeMode connState ⟨"BRB", ["BRB", "Main"], false⟩
    ["StartingSoon", "Main"] rfl (by decide)
  exact ⟨h.1, h.2.1, h.2.2.2.1⟩

/-! ## Claim C5 -/

/-- Claim C5: on a connected client, `setScene` with a name absent from
the controller's live scene list returns `success := false` (inline,
not thrown) with a message enumerating the actual available scenes, and
issues no `SetCurrentProgramScene` RPC - only the `GetSceneList`
read. -/
theorem claim_C5_setScene_unknown (name : String) (st : CState) (c : Controller)
    (hconn : st.connected = true) (habs : c.scenes.contains name = false) :
    (setScene name st c).1 = Except.ok ⟨false, sceneNotFoundMsg name c.scenes⟩
    ∧ strHasSub name (sceneNotFoundMsg name c.scenes) = true
    ∧ strHasSub (String.intercalate ", " c.scenes) (sceneNotFoundMsg name c.scenes) = true
    ∧ (setScene name st c).2 = ["GetSceneList"]
    ∧ "SetCurrentProgramScene" ∉ (setScene name st c).2 := by
  have h1 : setScene name st c
      = (Except.ok ⟨false, sceneNotFoundMsg name c.scenes⟩, ["GetSceneList"]) := by
    have hmem : name ∉ c.scenes := by simpa using habs
    unfold setScene ensureConnected
    rw [hconn]
    simp [hmem]
  refine ⟨by rw [h1], ?_, ?_, by rw [h1], by rw [h1]; simp⟩
  · apply strHasSub_infixed _ _ "SCENE_NOT_FOUND: Scene \""
      ("\" does not exist. Available: [" ++ String.intercalate ", " c.scenes ++ "]")
    simp [sceneNotFoundMsg, String.toList]
  · apply strHasSub_infixed _ _
      ("SCENE_NOT_FOUND: Scene \"" ++ name ++ "\" does not exist. Available: [") "]"
    simp [sceneNotFoundMsg, String.toList]

/-- Witness for C5 at a concrete input: switching to the non-existent
scene `Gaming` when the controller has `[StartingSoon, Main]`. -/
theorem claim_C5_witness :
    (setScene "Gaming" connState ⟨"Main", ["StartingSoon", "Main"], false⟩).1
      = Except.ok ⟨false, sceneNotFoundMsg "Gaming" ["StartingSoon", "Main"]⟩
    ∧ strHasSub (String.intercalate ", " ["StartingSoon", "Main"])
        (sceneNotFoundMsg "Gaming" ["StartingSoon", "Main"]) = true
    ∧ (setScene "Gaming" connState ⟨"Main", ["StartingSoon", "Main"], false⟩).2
      = ["GetSceneList"] := by
  have h := claim_C5_setScene_unknown "Gaming" connState
    ⟨"Main", ["StartingSoon", "Main"], false⟩ rfl (by decide)
  exact ⟨h.1, h.2.2.1, h.2.2.2.1⟩

/-! ## Claim C6

The claim lists `currentScene` and `availableScenes` among the optional
fields that are all null in the disconnected snapshot.  In the source,
`OBSStatus.currentScene` is a plain string and `availableScenes` a
plain array; the disconnected snapshot carries the sentinel `"N/A"` and
the empty array, not null.  The five genuinely nullable fields are
null, no RPC is issued, and no exception is raised; the amendment
records the two sentinels. -/

/-- Claim C6 (corrected), counterexample: in the snapshot returned
while disconnected, `currentScene` is the string `N/A` and
`availableScenes` the empty array - both non-null runtime values, so
the claim that these fields are null fails. -/
theorem claim_C6_cex :
    fieldVal (getStatus freshState repliesAllOk).1 StatusField.currentScene = JsVal.str "N/A"
    ∧ JsVal.str "N/A" ≠ JsVal.null
    ∧ fieldVal (getStatus freshState repliesAllOk).1 StatusField.availableScenes = JsVal.arr []
    ∧ JsVal.arr [] ≠ JsVal.null := by
  refine ⟨by decide, by decide, by decide, by decide⟩

/-- Claim C6 (amended): `getStatus` while disconnected returns - and
does not throw, being total - the fixed snapshot with
`connected = false`, sentinel `currentScene = "N/A"`, empty
`availableScenes`, and the five nullable fields (`streamTimecode`,
`recordTimecode`, `cpuUsage`, `memoryUsage`, `fps`) all null; no RPC is
issued and the client state is untouched. -/
theorem claim_C6_status_disconnected (st : CState) (o : StatusReplies)
    (hdisc : st.connected = false) :
    getStatus st o = (disconnectedSnapshot, st, [])
    ∧ (getStatus st o).1.connected = false
    ∧ fieldVal (getStatus st o).1 StatusField.streamTimecode = JsVal.null
    ∧ fieldVal (getStatus st o).1 StatusField.recordTimecode = JsVal.null
    ∧ fieldVal (getStatus st o).1 StatusField.cpuUsage = JsVal.null
    ∧ fieldVal (getStatus st o).1 StatusField.memoryUsage = JsVal.null
    ∧ fieldVal (getStatus st o).1 StatusField.fps = JsVal.null
    ∧ fieldVal (getStatus st o).1 StatusField.currentScene = JsVal.str "N/A"
    ∧ fieldVal (getStatus st o).1 StatusField.availableScenes = JsVal.arr []
    ∧ (getStatus st o).2.2 = []
    ∧ (getStatus st o).2.1 = st := by
  have h1 : getStatus st o = (disconnectedSnapshot, st, []) := by
    unfold getStatus
    rw [hdisc]
    rfl
  rw [h1]
  exact ⟨rfl, rfl, rfl, rfl, rfl, rfl, rfl, rfl, rfl, rfl, rfl⟩

/-- Witness for the amended C6 at a concrete input. -/
theorem claim_C6_witness :
    getStatus freshState repliesAllOk = (disconnectedSnapshot, freshState, []) :=
  (claim_C6_status_disconnected freshState repliesAllOk rfl).1

/-! ## Claim C10 -/

/-- Claim C10: `getStatus` is total (it cannot throw) and leaves the
client state - hence `isConnected()` - untouched.  On a connected
client, if any of the four non-best-effort sub-queries fails, it
returns the error snapshot with `connected = false` and
`currentScene = "ERROR"` while `isConnected()` still reports true, so
the snapshot disagrees with the session state; if only the best-effort
`GetStats` sub-query fails, the snapshot keeps `connected = true` and
merely nulls `cpuUsage`, `memoryUsage` and `fps`. -/
theorem claim_C10_status_error_degrades (st : CState) (o : StatusReplies)
    (hconn : st.connected = true) :
    (getStatus st o).2.1 = st
    ∧ isConnected (getStatus st o).2.1 = true
    ∧ ((exceptFailed o.stream || exceptFailed o.record || exceptFailed o.scene
          || exceptFailed o.sceneList) = true →
        (getStatus st o).1 = errorSnapshot
        ∧ (getStatus st o).1.connected = false
        ∧ (getStatus st o).1.currentScene = "ERROR"
        ∧ (getStatus st o).1.connected ≠ isConnected (getStatus st o).2.1)
    ∧ (∀ ss rs sc sl, o.stream = Except.ok ss → o.record = Except.ok rs →
        o.scene = Except.ok sc → o.sceneList = Except.ok sl →
        exceptFailed o.stats = true →
        (getStatus st o).1.connected = true
        ∧ (getStatus st o).1.cpuUsage = none
        ∧ (getStatus st o).1.memoryUsage = none
        ∧ (getStatus st o).1.fps = none) := by
  rcases hs : o.stream with es | ss0 <;> rcases hr : o.record with er | rs0 <;>
    rcases hc : o.scene with ec | sc0 <;> rcases hl : o.sceneList with el | sl0 <;>
    rcases ht : o.stats with et | st0 <;>
    simp_all [getStatus, isConnected, exceptFailed, errorSnapshot, Except.toOption]

/-- Witness for C10 at a concrete input: the scene sub-query fails, the
snapshot degrades to the error snapshot while the session state still
reports connected. -/
theorem claim_C10_witness :
    (getStatus connState repliesSceneFails).1 = errorSnapshot
    ∧ isConnected (getStatus connState repliesSceneFails).2.1 = true
    ∧ (getStatus connState repliesSceneFails).1.connected = false := by
  have h := claim_C10_status_error_degrades connState repliesSceneFails rfl
  have h3 := h.2.2.1 (by decide)
  exact ⟨h3.1, h.2.1, h3.2.1⟩

/-! ## Claim C7 -/

/-- When no candidate is accepted, the loop rejects them all in
order. -/
theorem micLoop_all_fail (accepts : String → Bool) :
    ∀ l, l.any accepts = false → micLoop accepts l = (none, l) := by
  intro l
  induction l with
  | nil => intro h; rfl
  | cons n ns ih =>
    intro h
    rw [List.any_cons] at h
    have hn : accepts n = false := by
      cases hx : accepts n
      · rfl
      · rw [hx] at h; simp at h
    have hns : ns.any accepts = false := by
      cases hx : ns.any accepts
      · rfl
      · rw [hx] at h; simp at h
    simp [micLoop, hn, ih hns]

/-- The loop stops at the first accepted candidate, having tried
exactly the rejected ones before it. -/
theorem micLoop_found (accepts : String → Bool) :
    ∀ l n, l.find? accepts = some n →
      micLoop accepts l = (some n, l.takeWhile (fun x => !accepts x) ++ [n]) := by
  intro l
  induction l with
  | nil => intro n h; simp at h
  | cons m ms ih =>
    intro n h
    by_cases hm : accepts m = true
    · rw [List.find?_cons_of_pos _ hm] at h
      injection h with h
      subst h
      simp [micLoop, hm, List.takeWhile_cons]
    · have hm2 : accepts m = false := by
        cases hx : accepts m
        · rfl
        · exact absurd hx hm
      rw [List.find?_cons_of_neg _ hm] at h
      simp [micLoop, hm2, ih n h, List.takeWhile_cons]

/-- Claim C7: on a connected client, `setMicMute` with no explicit name
tries the fixed fallback candidates in order - `Mic/Aux`, `Blue Yeti`,
`Microphone`, `Mic`, `Audio Input Capture`, `Desktop Audio` - stopping
with success at the first name whose `SetInputMute` the controller
accepts; when every candidate is rejected it returns
`success := false` with a message listing both the tried names and the
controller's actual input names (read via `GetInputList`); with an
explicit name, only that name is tried. -/
theorem claim_C7_setMicMute (st : CState) (mute : Bool) (accepts : String → Bool)
    (avail : List String) (hconn : st.connected = true) :
    micCandidates none = ["Mic/Aux", "Blue Yeti", "Microphone", "Mic",
        "Audio Input Capture", "Desktop Audio"]
    ∧ (∀ nm, (setMicMute mute (some nm) st accepts avail).2.1 = [nm])
    ∧ (∀ n, micFallback.find? accepts = some n →
        setMicMute mute none st accepts avail =
          (Except.ok ⟨true, n ++ " " ++ muteVerb mute⟩,
           micFallback.takeWhile (fun x => !accepts x) ++ [n], []))
    ∧ (micFallback.any accepts = false →
        (setMicMute mute none st accepts avail).1
            = Except.ok ⟨false, micNotFoundMsg micFallback avail⟩
        ∧ (setMicMute mute none st accepts avail).2.1 = micFallback
        ∧ (setMicMute mute none st accepts avail).2.2 = ["GetInputList"]
        ∧ strHasSub (String.intercalate ", " micFallback)
            (micNotFoundMsg micFallback avail) = true
        ∧ strHasSub (String.intercalate ", " avail)
            (micNotFoundMsg micFallback avail) = true) := by
  refine ⟨rfl, ?_, ?_, ?_⟩
  · intro nm
    unfold setMicMute ensureConnected
    rw [hconn]
    by_cases h : accepts nm = true
    · simp [micCandidates, micLoop, h]
    · simp [micCandidates, micLoop, h]
  · intro n hfind
    have hm := micLoop_found accepts micFallback n hfind
    unfold setMicMute ensureConnected
    rw [hconn]
    simp [micCandidates, hm]
  · intro hall
    have hm := micLoop_all_fail accepts micFallback hall
    have h1 : setMicMute mute none st accepts avail
        = (Except.ok ⟨false, micNotFoundMsg micFallback avail⟩, micFallback,
            ["GetInputList"]) := by
      unfold setMicMute ensureConnected
      rw [hconn]
      simp [micCandidates, hm]
    refine ⟨by rw [h1], by rw [h1], by rw [h1], ?_, ?_⟩
    · apply strHasSub_infixed _ _ "MIC_NOT_FOUND: Could not find mic input. Tried: ["
        ("]. Available inputs: [" ++ String.intercalate ", " avail ++ "]")
      simp [micNotFoundMsg, String.toList]
    · apply strHasSub_infixed _ _
        ("MIC_NOT_FOUND: Could not find mic input. Tried: ["
          ++ String.intercalate ", " micFallback ++ "]. Available inputs: [") "]"
      simp [micNotFoundMsg, String.toList]

/-- Witness for C7 at a concrete input: the controller accepts only
`Microphone`; the first two fallback names are tried and rejected, the
third succeeds, and no `GetInputList` is issued. -/
theorem claim_C7_witness :
    setMicMute true none connState (fun x => x == "Microphone") ["CamMic"] =
      (Except.ok ⟨true, "Microphone muted"⟩, ["Mic/Aux", "Blue Yeti", "Microphone"], []) := by
  have h := (claim_C7_setMicMute connState true (fun x => x == "Microphone") ["CamMic"]
    rfl).2.2.1 "Microphone" (by decide)
  rw [h]
  decide

/-! ## Claim C8 -/

/-- Claim C8: on a connected client, when an RPC inside
`setSourceVisibility` fails, the not-found-class transport condition
(message including `NotFound` or `600`) is mapped to the domain result
`success := false` with a `SOURCE_NOT_FOUND` message naming the source
and the scene, and any other transport error is rethrown unchanged. -/
theorem claim_C8_sourceVisibility_errors (st : CState) (scn src : String) (vis : Bool)
    (getId : Except String Nat) (setEnabled : Nat → Except String Unit) (e : String)
    (hconn : st.connected = true)
    (hfail : getId = Except.error e
      ∨ ∃ itemId, getId = Except.ok itemId ∧ setEnabled itemId = Except.error e) :
    (isNotFoundErr e = true →
      (setSourceVisibility scn src vis st getId setEnabled).1
          = Except.ok ⟨false, sourceNotFoundMsg src scn⟩
      ∧ strHasSub src (sourceNotFoundMsg src scn) = true
      ∧ strHasSub scn (sourceNotFoundMsg src scn) = true)
    ∧ (isNotFoundErr e = false →
      (setSourceVisibility scn src vis st getId setEnabled).1 = Except.error e) := by
  have hsub1 : strHasSub src (sourceNotFoundMsg src scn) = true := by
    apply strHasSub_infixed _ _ "SOURCE_NOT_FOUND: \""
      ("\" not found in scene \"" ++ scn ++ "\". Check exact source and scene names in OBS.")
    simp [sourceNotFoundMsg, String.toList]
  have hsub2 : strHasSub scn (sourceNotFoundMsg src scn) = true := by
    apply strHasSub_infixed _ _ ("SOURCE_NOT_FOUND: \"" ++ src ++ "\" not found in scene \"")
      "\". Check exact source and scene names in OBS."
    simp [sourceNotFoundMsg, String.toList]
  rcases hfail with hg | ⟨itemId, hg, hs⟩
  · refine ⟨fun hnf => ⟨?_, hsub1, hsub2⟩, fun hnf => ?_⟩
    · unfold setSourceVisibility ensureConnected
      rw [hconn, hg]
      simp [hnf]
    · unfold setSourceVisibility ensureConnected
      rw [hconn, hg]
      simp [hnf]
  · refine ⟨fun hnf => ⟨?_, hsub1, hsub2⟩, fun hnf => ?_⟩
    · unfold setSourceVisibility ensureConnected
      rw [hconn, hg]
      simp [hs, hnf]
    · unfold setSourceVisibility ensureConnected
      rw [hconn, hg]
      simp [hs, hnf]

/-- Witness for C8 at concrete inputs: a not-found transport failure of
`GetSceneItemId` maps to the domain result, and an unrelated transport
failure is rethrown as-is. -/
theorem claim_C8_witness :
    (setSourceVisibility "Main" "Webcam" true connState
        (Except.error "request GetSceneItemId failed: NotFound (600)")
        (fun _ => Except.ok ())).1
      = Except.ok ⟨false, sourceNotFoundMsg "Webcam" "Main"⟩
    ∧ (setSourceVisibility "Main" "Webcam" true connState
        (Except.error "socket closed") (fun _ => Except.ok ())).1
      = Except.error "socket closed" := by
  have h1 := (claim_C8_sourceVisibility_errors connState "Main" "Webcam" true
    (Except.error "request GetSceneItemId failed: NotFound (600)") (fun _ => Except.ok ())
    "request GetSceneItemId failed: NotFound (600)" rfl (Or.inl rfl)).1 (by decide)
  have h2 := (claim_C8_sourceVisibility_errors connState "Main" "Webcam" true
    (Except.error "socket closed") (fun _ => Except.ok ()) "socket closed" rfl
    (Or.inl rfl)).2 (by decide)
  exact ⟨h1.1, h2⟩

/-! ## Claim C1: serializer lemmas -/

/-- Every operation has at least one event (its `begun`). -/
theorem lenAt_pos (ws : List Work) (i : Nat) : 0 < lenAt ws i := by
  simp [lenAt, seqAt, opEvents]

/-- Advancing the active operation of a normal-form progress vector
stays in normal form. -/
theorem stepUpd_normProg (ws : List Work) (k c : Nat) :
    stepUpd (normProg ws k c) k = normProg ws k (c + 1) := by
  funext j
  by_cases hj : j = k
  · subst hj
    simp [stepUpd, normProg]
  · simp [stepUpd, normProg, hj]

/-- A normal form whose active operation has emitted everything is the
normal form at the next operation. -/
theorem normProg_at_len (ws : List Work) (k : Nat) :
    normProg ws k (lenAt ws k) = normProg ws (k + 1) 0 := by
  funext j
  unfold normProg
  by_cases h1 : j < k
  · rw [if_pos h1, if_pos (by omega : j < k + 1)]
  · by_cases h2 : j = k
    · subst h2
      rw [if_neg h1, if_pos rfl, if_pos (by omega : j < j + 1)]
    · have h3 : ¬ j < k + 1 := by omega
      rw [if_neg h1, if_neg h2, if_neg h3]
      by_cases h5 : j = k + 1
      · rw [if_pos h5]
      · rw [if_neg h5]

/-- Determinism: from a normal form whose operation `k` still has
events left, the only enabled scheduler step is operation `k` emitting
its next event - the gating of the promise chain blocks every later
operation, and earlier ones are exhausted. -/
theorem serStep_norm (ws : List Work) (k c : Nat) (e : SEv) (q : Nat → Nat)
    (hk : k < ws.length) (hc : c < lenAt ws k)
    (h : SerStep ws (normProg ws k c) e q) :
    e = (seqAt ws k).getD c (SEv.done 0) ∧ q = normProg ws k (c + 1) := by
  cases h with
  | mk i hi hp hgate =>
    have hik : i = k := by
      by_contra hne
      rcases Nat.lt_or_ge i k with hlt | hge
      · have heq : normProg ws k c i = lenAt ws i := by simp [normProg, hlt]
        rw [heq] at hp
        omega
      · have hgt : k < i := by omega
        have hzero : normProg ws k c i = 0 := by
          have h1 : ¬ i < k := by omega
          simp [normProg, h1, hne]
        have h0i : 0 < i := by omega
        have hprev := hgate hzero h0i
        by_cases hik1 : i - 1 = k
        · rw [hik1] at hprev
          have hck : c = lenAt ws k := by simpa [normProg] using hprev
          omega
        · have h1 : ¬ i - 1 < k := by omega
          rw [show normProg ws k c (i - 1) = 0 from by simp [normProg, h1, hik1]] at hprev
          have := lenAt_pos ws (i - 1)
          omega
    subst hik
    have h1 : normProg ws i c i = c := by simp [normProg]
    constructor
    · rw [h1]
    · rw [show stepUpd (normProg ws i c) i = normProg ws i (c + 1) from
        stepUpd_normProg ws i c]

/-- No scheduler step is possible once every operation has finished. -/
theorem serStep_full_elim (ws : List Work) (e : SEv) (q : Nat → Nat)
    (h : SerStep ws (normProg ws ws.length 0) e q) : False := by
  cases h with
  | mk i hi hp hgate =>
    have heq : normProg ws ws.length 0 i = lenAt ws i := by simp [normProg, hi]
    rw [heq] at hp
    omega

/-- Unfolding of the canonical trace at a live head operation. -/
theorem canonAux_shift (ws : List Work) (k : Nat) (h : k < ws.length) :
    canonAux ws k (ws.length - k)
      = seqAt ws k ++ canonAux ws (k + 1) (ws.length - (k + 1)) := by
  have h1 : ws.length - k = (ws.length - (k + 1)) + 1 := by omega
  rw [h1]
  rfl

/-- The whole canonical trace remains to be emitted at the start. -/
theorem tailCanon_zero (ws : List Work) : tailCanon ws 0 0 = canonical ws := by
  unfold tailCanon canonical
  by_cases h : 0 < ws.length
  · rw [if_pos h, List.drop_zero]
    have hs := canonAux_shift ws 0 h
    rw [Nat.sub_zero] at hs
    rw [hs]
  · have h0 : ws.length = 0 := by omega
    rw [if_neg h, h0]
    rfl

/-- Peeling one event off the remaining canonical trace. -/
theorem tailCanon_cons (ws : List Work) (k c : Nat) (hk : k < ws.length)
    (hc : c < lenAt ws k) :
    tailCanon ws k c = (seqAt ws k).getD c (SEv.done 0) :: tailCanon ws k (c + 1) := by
  unfold tailCanon
  rw [if_pos hk, if_pos hk]
  have hclen : c < (seqAt ws k).length := hc
  have hgetD : (seqAt ws k).getD c (SEv.done 0) = (seqAt ws k).get ⟨c, hclen⟩ := by
    rw [List.getD_eq_getElem?_getD, List.getElem?_eq_getElem hclen]
    rfl
  rw [List.drop_eq_getElem_cons hclen, hgetD]
  rfl

/-- When the active operation has just finished, the remaining
canonical trace is that of the next operation. -/
theorem tailCanon_shift (ws : List Work) (k : Nat) (hk : k < ws.length) :
    tailCanon ws k (lenAt ws k) = tailCanon ws (k + 1) 0 := by
  unfold tailCanon
  rw [if_pos hk]
  have hdrop : (seqAt ws k).drop (lenAt ws k) = [] := List.drop_eq_nil_of_le le_rfl
  rw [hdrop, List.nil_append]
  by_cases h2 : k + 1 < ws.length
  · rw [if_pos h2, List.drop_zero]
    exact canonAux_shift ws (k + 1) h2
  · rw [if_neg h2]
    have h3 : ws.length - (k + 1) = 0 := by omega
    rw [h3]
    rfl

/-- Uniqueness: any scheduler run from a reachable normal form to the
all-finished state emits exactly the remaining canonical trace. -/
theorem serRun_norm (ws : List Work) {p : Nat → Nat} {t : List SEv} {q : Nat → Nat}
    (hrun : SerRun ws p t q) :
    ∀ k c, p = normProg ws k c → k ≤ ws.length →
      (k < ws.length → c < lenAt ws k) → (k = ws.length → c = 0) →
      q = fullProg ws → t = tailCanon ws k c := by
  induction hrun with
  | nil p =>
    intro k c hp hk hc hkn hq
    by_cases hlt : k < ws.length
    · exfalso
      have h1 : normProg ws k c k = c := by simp [normProg]
      have h2 : fullProg ws k = lenAt ws k := by simp [fullProg, hlt]
      have h3 : normProg ws k c = fullProg ws := by rw [← hp, hq]
      have h4 := congrFun h3 k
      rw [h1, h2] at h4
      have := hc hlt
      omega
    · have hk2 : k = ws.length := by omega
      subst hk2
      unfold tailCanon
      rw [if_neg (by omega : ¬ ws.length < ws.length)]
  | @cons p e q1 t r hstep hrest ih =>
    intro k c hp hk hc hkn hq
    by_cases hlt : k < ws.length
    · have hck := hc hlt
      subst hp
      obtain ⟨he, hq1⟩ := serStep_norm ws k c e q1 hlt hck hstep
      subst he
      by_cases hend : c + 1 < lenAt ws k
      · have ht := ih k (c + 1) hq1 hk (fun _ => hend)
          (fun hkk => absurd hkk (by omega)) hq
        rw [tailCanon_cons ws k c hlt hck, ht]
      · have hc1 : c + 1 = lenAt ws k := by omega
        have hq1n : q1 = normProg ws (k + 1) 0 := by
          rw [hq1, hc1, normProg_at_len]
        have ht := ih (k + 1) 0 hq1n (by omega) (fun _ => lenAt_pos ws (k + 1))
          (fun _ => rfl) hq
        rw [tailCanon_cons ws k c hlt hck, ht, hc1, tailCanon_shift ws k hlt]
    · exfalso
      have hk2 : k = ws.length := by omega
      have hc0 : c = 0 := hkn hk2
      subst hk2
      subst hc0
      rw [hp] at hstep
      exact serStep_full_elim ws e q1 hstep

/-- Liveness within one operation: from any point of the active
operation, the remaining canonical trace is schedulable, given the
tail from the next operation on is.  Note this holds independently of
any `Work.failed` flag: the `done` event of a throwing body is emitted
by the `finally` cleanup, so the queue advances regardless. -/
theorem serRun_exists_inner (ws : List Work) (k : Nat) (hk : k < ws.length) :
    ∀ m c, c + m = lenAt ws k →
      SerRun ws (normProg ws (k + 1) 0) (tailCanon ws (k + 1) 0) (fullProg ws) →
      SerRun ws (normProg ws k c) (tailCanon ws k c) (fullProg ws) := by
  intro m
  induction m with
  | zero =>
    intro c hcm hnext
    have hc : c = lenAt ws k := by omega
    subst hc
    rw [normProg_at_len ws k, tailCanon_shift ws k hk]
    exact hnext
  | succ g ih =>
    intro c hcm hnext
    have hc : c < lenAt ws k := by omega
    have h1 : normProg ws k c k = c := by simp [normProg]
    have hgate : normProg ws k c k = 0 → 0 < k →
        normProg ws k c (k - 1) = lenAt ws (k - 1) := by
      intro h0 hk0
      have hlt : k - 1 < k := by omega
      simp [normProg, hlt]
    have hbase := @SerStep.mk ws (normProg ws k c) k hk
      (by rw [h1]; exact hc) hgate
    rw [h1, stepUpd_normProg ws k c] at hbase
    have hrest := ih (c + 1) (by omega) hnext
    have hcons := SerRun.cons hbase hrest
    rw [tailCanon_cons ws k c hk hc]
    exact hcons

/-- Liveness: the full canonical trace is schedulable from the normal
form at operation `k`, for every `k`. -/
theorem serRun_exists_outer (ws : List Work) :
    ∀ d k, ws.length - k = d → k ≤ ws.length →
      SerRun ws (normProg ws k 0) (tailCanon ws k 0) (fullProg ws) := by
  intro d
  induction d with
  | zero =>
    intro k hd hk
    have hkn : k = ws.length := by omega
    subst hkn
    have h1 : tailCanon ws ws.length 0 = [] := by
      unfold tailCanon
      rw [if_neg (by omega : ¬ ws.length < ws.length)]
    have h2 : normProg ws ws.length 0 = fullProg ws := by
      funext j
      by_cases hj : j < ws.length <;> simp [normProg, fullProg, hj]
    rw [h1, h2]
    exact SerRun.nil (fullProg ws)
  | succ g ih =>
    intro k hd hk
    have hklt : k < ws.length := by omega
    exact serRun_exists_inner ws k hklt (lenAt ws k) 0 (by omega)
      (ih (k + 1) (by omega) (by omega))

/-- Claim C1: for a batch of serialized operations, every complete
scheduler run - any interleaving the promise chain of `serialize`
admits that finishes all operations - produces exactly the canonical
FIFO trace: the operations execute in queue order, each one's `begun`,
RPC calls and `done` form a contiguous block, so RPC calls of distinct
operations never interleave and the earlier operation completes before
the later one begins; and that complete trace is schedulable whatever
the operations' outcomes, because the queue slot (the `done` event) is
released on every exit path, including throwing bodies, so a failing
operation never stalls the queue. -/
theorem claim_C1_serializer_fifo (ws : List Work) :
    (∀ t, SerRun ws initProg t (fullProg ws) → t = canonical ws)
    ∧ SerRun ws initProg (canonical ws) (fullProg ws) := by
  have hinit : initProg = normProg ws 0 0 := by
    funext j
    simp [initProg, normProg, Nat.not_lt_zero]
  constructor
  · intro t hrun
    rw [hinit] at hrun
    have ht := serRun_norm ws hrun 0 0 rfl (by omega)
      (fun _ => lenAt_pos ws 0) (fun _ => rfl) rfl
    rw [ht, tailCanon_zero]
  · have h := serRun_exists_outer ws ws.length 0 (by omega) (by omega)
    rw [tailCanon_zero] at h
    rw [hinit]
    exact h

/-- Witness for C1 at a concrete batch (whose middle operation
throws): the canonical trace is the three contiguous blocks in queue
order, and it is a complete run of the serializer machine - the
failing operation still emits `done` and the queue advances past
it. -/
theorem claim_C1_witness :
    canonical wsBatch = [SEv.begun 0, SEv.rpc 0 0 "GetStreamStatus",
        SEv.rpc 0 1 "StartStream", SEv.done 0, SEv.begun 1, SEv.rpc 1 0 "GetSceneList",
        SEv.done 1, SEv.begun 2, SEv.done 2]
    ∧ SerRun wsBatch initProg (canonical wsBatch) (fullProg wsBatch)
    ∧ (wsBatch.getD 1 ⟨[], false⟩).failed = true :=
  ⟨by decide, (claim_C1_serializer_fifo wsBatch).2, by decide⟩
